import Mathlib

/-!
# Calamares `CalamaresUtilsSystem.cpp`: mount, chroot execution, memory probes

A shallow embedding of `src/libcalamares/utils/CalamaresUtilsSystem.cpp`.

* Strings (`QString`, `QByteArray` text) are Lean `String`s; the helpers that
  inspect characters work on `List Char`. A byte array is identified with the
  text it encodes, so the conversions between the two are the identity.
* The host (file system, job queue, child processes) is an explicit `Host`
  value whose fields answer the questions the C++ code asks of Qt.
* Every call returns its integer status together with the list of external
  effects it performed (directories created, processes started, data written),
  so that statements such as "no process is spawned" are statements about that
  list.
* C++ `int` and `qint64` arithmetic is carried out on `Int` and wrapped to the
  machine width where the source multiplies or adds.
* Diagnostic logging (`cLog()`) does not influence a status or an output buffer
  and is left out.
-/

namespace CalamaresUtils

/-! ## Machine integers -/

/-- Two's complement wrap of an integer to a signed width of `w` bits. -/
def wrapSigned (w : Nat) (x : Int) : Int :=
  (x + 2 ^ (w - 1)) % 2 ^ w - 2 ^ (w - 1)

/-- The value a C++ `int` (32 bits) holds after computing `x`. -/
def wrapInt32 (x : Int) : Int := wrapSigned 32 x

/-- The value a `qint64` holds after computing `x`. -/
def wrapInt64 (x : Int) : Int := wrapSigned 64 x

/-- Whether `x` is representable in a signed integer of `w` bits. -/
def fitsSigned (w : Nat) (x : Int) : Prop :=
  -(2 ^ (w - 1) : Int) ≤ x ∧ x < 2 ^ (w - 1)

instance (w : Nat) (x : Int) : Decidable (fitsSigned w x) := by
  unfold fitsSigned; infer_instance

/-! ## Qt character classes and string helpers -/

/-- The C-locale `isspace` set used by `QByteArray::simplified`:
space, `\t`, `\n`, `\v`, `\f`, `\r`. -/
def asciiIsSpace (c : Char) : Bool :=
  c.toNat = 32 || (9 ≤ c.toNat && c.toNat ≤ 13)

/-- Code points of the Unicode separator categories (Zs, Zl, Zp) above U+007F
other than U+00A0. -/
def isSeparatorCategory (n : Nat) : Bool :=
  n = 0x1680 || (0x2000 ≤ n && n ≤ 0x200A) || n = 0x2028 || n = 0x2029 ||
  n = 0x202F || n = 0x205F || n = 0x3000

/-- Model of `QChar::isSpace`: `ucs4 == 0x20 || (0x09 <= ucs4 <= 0x0d) ||
(ucs4 > 127 && (ucs4 == 0x85 || ucs4 == 0xa0 || separator category))`. -/
def qcharIsSpace (c : Char) : Bool :=
  c.toNat = 0x20 || (0x09 ≤ c.toNat && c.toNat ≤ 0x0d) ||
  (127 < c.toNat && (c.toNat = 0x85 || c.toNat = 0xa0 || isSeparatorCategory c.toNat))

/-- ASCII decimal digit, the meaning of `\d` in the pattern and the digits a
C-locale number conversion accepts. -/
def isDigitChar (c : Char) : Bool :=
  48 ≤ c.toNat && c.toNat ≤ 57

/-- Word character of a regular expression without Unicode properties:
`[A-Za-z0-9_]`. -/
def isWordChar (c : Char) : Bool :=
  isDigitChar c || (65 ≤ c.toNat && c.toNat ≤ 90) || (97 ≤ c.toNat && c.toNat ≤ 122) ||
  c.toNat = 95

/-- Maximal runs of non-space characters, in order; `cur` is the run being
read, reversed. -/
def wordsAux (sp : Char → Bool) : List Char → List Char → List (List Char)
  | [], cur => if cur = [] then [] else [cur.reverse]
  | c :: cs, cur =>
    if sp c then
      (if cur = [] then wordsAux sp cs [] else cur.reverse :: wordsAux sp cs [])
    else wordsAux sp cs (c :: cur)

/-- The words of a text with respect to the space predicate `sp`. -/
def words (sp : Char → Bool) (s : List Char) : List (List Char) :=
  wordsAux sp s []

/-- Join words with single spaces. -/
def joinWithSpace : List (List Char) → List Char
  | [] => []
  | [w] => w
  | w :: ws => w ++ ' ' :: joinWithSpace ws

/-- Common shape of `QByteArray::simplified` and `QString::simplified`:
whitespace removed from both ends and every internal run of whitespace
replaced by one space. -/
def simplifiedWith (sp : Char → Bool) (s : List Char) : List Char :=
  joinWithSpace (words sp s)

/-- Model of `QByteArray::simplified` (C-locale whitespace). -/
def byteArraySimplified (s : String) : String :=
  String.mk (simplifiedWith asciiIsSpace s.data)

/-- Model of `QString::simplified` (`QChar::isSpace` whitespace). -/
def simplified (s : String) : String :=
  String.mk (simplifiedWith qcharIsSpace s.data)

/-- Remove the characters satisfying `sp` from both ends. -/
def trimWith (sp : Char → Bool) (s : List Char) : List Char :=
  ((s.dropWhile sp).reverse.dropWhile sp).reverse

/-- Model of `QString::trimmed`. -/
def trimmed (s : String) : String :=
  String.mk (trimWith qcharIsSpace s.data)

/-- Split at every occurrence of `sep`, keeping empty parts. -/
def splitChars (sep : Char) : List Char → List (List Char)
  | [] => [[]]
  | c :: cs =>
    if c = sep then [] :: splitChars sep cs
    else
      match splitChars sep cs with
      | w :: ws => (c :: w) :: ws
      | [] => [[c]]

/-- Model of `QString::split(QChar)` with the default `KeepEmptyParts`. -/
def split (s : String) (sep : Char) : List String :=
  (splitChars sep s.data).map String.mk

/-- Model of `QString::clear()`: the content afterwards is the empty string. -/
def clear (_content : String) : String := ""

/-- Model of `QList::value(i)`: the element at index `i`, or a
default-constructed (empty) string when `i` is out of range. -/
def value (l : List String) (i : Nat) : String :=
  (l.get? i).getD ""

/-- Value of a run of ASCII decimal digits read after the value `acc`; `none`
when a character is not a digit. -/
def digitsValue : List Char → Nat → Option Nat
  | [], acc => some acc
  | c :: cs, acc => if isDigitChar c then digitsValue cs (acc * 10 + (c.toNat - 48)) else none

/-- An optionally signed decimal integer occupying the whole text. -/
def parseSignedDecimal (s : List Char) : Option Int :=
  match s with
  | [] => none
  | c :: cs =>
    if c = '-' then
      (match cs with
       | [] => none
       | _ => (digitsValue cs 0).map fun n => -(n : Int))
    else if c = '+' then
      (match cs with
       | [] => none
       | _ => (digitsValue cs 0).map fun n => (n : Int))
    else (digitsValue (c :: cs) 0).map fun n => (n : Int)

/-- Common shape of Qt's base-10 string to integer conversions: surrounding
whitespace is ignored, the rest must be an optionally signed run of ASCII
digits whose value fits `w` bits. Returns the value and the `ok` flag; the
value is 0 when `ok` is false. -/
def toIntegral (w : Nat) (s : String) : Int × Bool :=
  match parseSignedDecimal (trimWith qcharIsSpace s.data) with
  | some v => if fitsSigned w v then (v, true) else (0, false)
  | none => (0, false)

/-- Model of `QString::toLongLong(bool* ok)` in base 10. -/
def toLongLong (s : String) : Int × Bool := toIntegral 64 s

/-- Model of `QString::toInt(bool* ok)` in base 10. -/
def toInt (s : String) : Int × Bool := toIntegral 32 s

/-! ## The regular expression of `getPhysicalMemoryB` -/

/-- The single-character classes that occur in the pattern. -/
inductive CharClass where
  | nonWord
  | digit
  | lit (c : Char)
  deriving DecidableEq, Repr

/-- Whether a character belongs to a class: `\W`, `\d`, or a literal. -/
def CharClass.test : CharClass → Char → Bool
  | .nonWord, c => !isWordChar c
  | .digit, c => isDigitChar c
  | .lit a, c => c = a

/-- One pattern item: a class, taken once or under `*`. -/
structure Item where
  cls : CharClass
  star : Bool
  deriving DecidableEq, Repr

/-- Whether `k` accepts some suffix reached by skipping zero or more leading
characters that satisfy `test`: the backtracking of `x*` followed by the rest
of the pattern. -/
def starThen (test : Char → Bool) (k : List Char → Bool) : List Char → Bool
  | [] => k []
  | c :: cs => k (c :: cs) || (test c && starThen test k cs)

/-- Whether the item sequence matches a prefix of the text. -/
def matchHere : List Item → List Char → Bool
  | [] => fun _ => true
  | it :: rest =>
    if it.star then starThen it.cls.test (matchHere rest)
    else fun s =>
      match s with
      | [] => false
      | c :: cs => it.cls.test c && matchHere rest cs

/-- The items of a literal string. -/
def literal (s : String) : List Item :=
  s.data.map fun c => { cls := .lit c, star := false }

/-- The pattern `^\W*Size:\W\d*\WMB`, without its leading anchor. -/
def sizePattern : List Item :=
  [{ cls := .nonWord, star := true }] ++ literal "Size:" ++
  [{ cls := .nonWord, star := false }, { cls := .digit, star := true },
   { cls := .nonWord, star := false }] ++ literal "MB"

/-- Whether a line contains a match of `^\W*Size:\W\d*\WMB`; because of the
anchor `^` a match can only begin at the start of the line. -/
def matchesSizePattern (line : String) : Bool :=
  matchHere sizePattern line.data

/-- Model of `QStringList::filter(QRegularExpression)` for the size pattern:
the lines that contain a match, in order. -/
def filter (lines : List String) : List String :=
  lines.filter matchesSizePattern

/-! ## The host -/

/-- Modelled from the spec: the global storage of the job queue
(`GlobalStorage.h` is not part of the sources at hand), a key/value store from
which one key is read. A value is represented by the string that
`QVariant::toString()` yields for it. -/
structure GlobalStorage where
  entries : List (String × String)
  deriving DecidableEq, Repr

/-- Model of `GlobalStorage::contains`: whether the key has an entry. -/
def GlobalStorage.contains (gs : GlobalStorage) (key : String) : Bool :=
  (gs.entries.lookup key).isSome

/-- Model of `GlobalStorage::value(key).toString()`: the entry of the key, or
the empty string of an invalid `QVariant`. -/
def GlobalStorage.value (gs : GlobalStorage) (key : String) : String :=
  (gs.entries.lookup key).getD ""

/-- Modelled from the spec: the job queue (`JobQueue.h` is not part of the
sources at hand); `globalStorage()` returns a pointer that may be null. -/
structure JobQueue where
  globalStorage : Option GlobalStorage
  deriving DecidableEq, Repr

/-- Values of `QProcess::ProcessChannelMode` that matter here. -/
inductive ProcessChannelMode where
  | SeparateChannels
  | MergedChannels
  deriving DecidableEq, Repr

/-- Values of `QProcess::ExitStatus`. -/
inductive ExitStatus where
  | NormalExit
  | CrashExit
  deriving DecidableEq, Repr

/-- The configuration of a `QProcess` object before `start()`. -/
structure ProcessConfig where
  program : String
  arguments : List String
  channelMode : ProcessChannelMode
  workingDirectory : Option String
  deriving DecidableEq, Repr

/-- A freshly constructed `QProcess`. -/
def ProcessConfig.fresh : ProcessConfig :=
  { program := "", arguments := [], channelMode := .SeparateChannels,
    workingDirectory := none }

/-- What a started child process does. `duration` is the number of
milliseconds after which it has finished, counted from the moment the caller
starts to wait (`none`: it never finishes). `exitCode` is a POSIX exit
status, hence not negative. `output` is what `readAllStandardOutput()`
delivers, decoded by `QString::fromLocal8Bit`; in merged channel mode that is
the text written to standard output and standard error together. -/
structure ProcessRun where
  duration : Option Nat
  exitStatus : ExitStatus
  exitCode : Nat
  output : String
  deriving DecidableEq, Repr

/-- Model of `QProcess::waitForFinished(msecs)` on a running process: with
`msecs = -1` there is no timeout, so the call returns `true` when the process
finishes and never returns when it does not (`none`); otherwise it returns
whether the process has finished by the time `msecs` milliseconds have passed,
where a negative time left counts as none left (Qt polls once with a timeout
of zero), so that only a process that has already finished is seen. -/
def ProcessRun.waitForFinished (r : ProcessRun) (msecs : Int) : Option Bool :=
  match r.duration with
  | some d => if msecs = -1 then some true else some (decide ((d : Int) ≤ max msecs 0))
  | none => if msecs = -1 then none else some false

/-- What the C++ code can observe of the machine it runs on. -/
structure Host where
  /-- The pointer `Calamares::JobQueue::instance()`, possibly null. -/
  jobQueueInstance : Option JobQueue
  /-- Answer of `QDir( path ).exists()`. -/
  dirExists : String → Bool
  /-- Result of `QDir::mkpath( path )`. -/
  mkpath : String → Bool
  /-- Answer of `QDir( path ).absolutePath()`. -/
  absolutePath : String → String
  /-- Return value of `QProcess::execute( program, args )`: the exit code of
  the process, -2 when it cannot be started, -1 when it crashes. -/
  execute : String → List String → Int
  /-- Result of `waitForStarted()` after `start()` on this configuration. -/
  waitForStarted : ProcessConfig → Bool
  /-- Behaviour of the started process; the second argument is what was
  written to its input channel before that channel was closed (`none` when
  nothing was written and the channel stays open). -/
  run : ProcessConfig → Option String → ProcessRun

/-- External effects of a call, in the order they happen. -/
inductive Effect where
  | mkpath (path : String)
  | execute (program : String) (arguments : List String)
  | start (config : ProcessConfig)
  | write (data : String)
  | closeWriteChannel
  | waitForFinished (msecs : Int)
  deriving DecidableEq, Repr

/-- Whether an effect creates a child process. -/
def Effect.spawns : Effect → Bool
  | .execute _ _ => true
  | .start _ => true
  | _ => false

/-- What a call leaves behind: the returned status, the content of the output
buffer (for the calls that have one) and the external effects. -/
structure CallResult where
  ret : Int
  output : String
  effects : List Effect
  deriving DecidableEq, Repr

/-- How a call ends: it returns, or it waits for ever on a child process that
does not finish. The effects performed are known in both cases. -/
inductive Outcome where
  | returned (result : CallResult)
  | blocked (effects : List Effect)
  deriving DecidableEq, Repr

/-- The external effects of a call. -/
def Outcome.effects : Outcome → List Effect
  | .returned r => r.effects
  | .blocked es => es

/-! ## `mount` -/

/-- Embedding of `mount( devicePath, mountPoint, filesystemName, options )`;
it has no output buffer, so `output` is left empty. -/
def mount (host : Host) (devicePath mountPoint filesystemName options : String) :
    CallResult :=
  if devicePath = "" || mountPoint = "" then
    { ret := -3, output := "", effects := [] }
  else
    let needsCreation := !host.dirExists mountPoint
    if needsCreation && !host.mkpath mountPoint then
      { ret := -3, output := "", effects := [Effect.mkpath mountPoint] }
    else
      let program := "mount"
      let args := [devicePath, mountPoint]
      let args := if filesystemName ≠ "" then args ++ ["-t", filesystemName] else args
      let args := if options ≠ "" then args ++ ["-o", options] else args
      { ret := host.execute program args
        output := ""
        effects := (if needsCreation then [Effect.mkpath mountPoint] else []) ++
          [Effect.execute program args] }

/-! ## `chrootOutput` and `chrootCall` -/

/-- The argument of `waitForFinished` in `chrootOutput`:
`timeoutSec ? ( timeoutSec * 1000 ) : -1`, computed in C++ `int`. -/
def waitBound (timeoutSec : Int) : Int :=
  if timeoutSec ≠ 0 then wrapInt32 (timeoutSec * 1000) else -1

/-- Embedding of `chrootOutput( const QStringList& args, QString& output,
workingPath, stdInput, timeoutSec )`. The parameter `output` is the content of
the caller's buffer on entry; the result carries its content on return.
`Outcome.blocked` means that the call never returns. -/
def chrootOutput (host : Host) (args : List String) (output : String)
    (workingPath stdInput : String) (timeoutSec : Int) : Outcome :=
  let output := clear output
  match host.jobQueueInstance with
  | none => .returned { ret := -3, output := output, effects := [] }
  | some jobQueue =>
    match jobQueue.globalStorage with
    | none => .returned { ret := -3, output := output, effects := [] }
    | some gs =>
      if !gs.contains "rootMountPoint" then
        .returned { ret := -3, output := output, effects := [] }
      else
        let destDir := gs.value "rootMountPoint"
        if !host.dirExists destDir then
          .returned { ret := -3, output := output, effects := [] }
        else
          let program := "chroot"
          let arguments := [destDir] ++ args
          let process : ProcessConfig :=
            { ProcessConfig.fresh with
              program := program, arguments := arguments, channelMode := .MergedChannels }
          if workingPath ≠ "" then
            -- `return -3;` follows the if/else without braces, so it is
            -- reached on both branches
            let _process : ProcessConfig :=
              if host.dirExists workingPath then
                { process with workingDirectory := some (host.absolutePath workingPath) }
              else process
            .returned { ret := -3, output := output, effects := [] }
          else
            let started := [Effect.start process]
            if !host.waitForStarted process then
              .returned { ret := -2, output := output, effects := started }
            else
              let written :=
                if stdInput ≠ "" then [Effect.write stdInput, Effect.closeWriteChannel] else []
              let run := host.run process (if stdInput ≠ "" then some stdInput else none)
              let msecs := waitBound timeoutSec
              let effects := started ++ written ++ [Effect.waitForFinished msecs]
              match run.waitForFinished msecs with
              | none => .blocked effects
              | some false => .returned { ret := -4, output := output, effects := effects }
              | some true =>
                let output := output ++ trimmed run.output
                if run.exitStatus = .CrashExit then
                  .returned { ret := -1, output := output, effects := effects }
                else
                  .returned { ret := (run.exitCode : Int), output := output, effects := effects }

/-- Embedding of the overload `chrootOutput( const QString& command, ... )`. -/
def chrootOutputCommand (host : Host) (command : String) (output : String)
    (workingPath stdInput : String) (timeoutSec : Int) : Outcome :=
  chrootOutput host [command] output workingPath stdInput timeoutSec

/-- Embedding of `chrootCall( const QStringList& args, ... )`: the output goes
to a local, default-constructed buffer `discard`, which the caller never sees.
The `output` field of the result is that local buffer. -/
def chrootCall (host : Host) (args : List String)
    (workingPath stdInput : String) (timeoutSec : Int) : Outcome :=
  let discard := ""
  chrootOutput host args discard workingPath stdInput timeoutSec

/-- Embedding of the overload `chrootCall( const QString& command, ... )`. -/
def chrootCallCommand (host : Host) (command : String)
    (workingPath stdInput : String) (timeoutSec : Int) : Outcome :=
  chrootCall host [command] workingPath stdInput timeoutSec

/-! ## Memory probes -/

/-- The loop of `getPhysicalMemoryB`: add the second word of every line to the
running sum; `none` stands for the early `return 0` on a failed conversion. -/
def sumSizes : List String → Int → Option Int
  | [], availableRamMb => some availableRamMb
  | line :: rest, availableRamMb =>
    let r := toInt (value (split (simplified line) ' ') 1)
    let availableRamMb := wrapInt64 (availableRamMb + r.1)
    if !r.2 then none else sumSizes rest availableRamMb

/-- Embedding of `getPhysicalMemoryB()` as a function of the text that
`dmidecode -t 17` wrote to its standard output. -/
def getPhysicalMemoryB (dmidecodeOutput : String) : Int :=
  let lines := split dmidecodeOutput (Char.ofNat 10)
  let lines := filter lines
  if lines ≠ [] then 0
  else
    match sumSizes lines 0 with
    | none => 0
    | some availableRamMb =>
      let availableRam := wrapInt64 (wrapInt64 (availableRamMb * 1024) * 1024)
      availableRam

/-- Embedding of `getTotalMemoryB()` as a function of the text that
`awk '/MemTotal/ {print $2}' /proc/meminfo` wrote to its standard output. -/
def getTotalMemoryB (awkOutput : String) : Int :=
  let memoryLine := byteArraySimplified awkOutput
  let r := toLongLong memoryLine
  let availableRam := wrapInt64 (r.1 * 1024)
  if !r.2 then 0 else availableRam

/-! ## The tools the memory probes run -/

/-- Whether `pat` occurs in the text as a contiguous substring. -/
def containsText (pat : List Char) : List Char → Bool
  | [] => pat.isPrefixOf []
  | c :: cs => pat.isPrefixOf (c :: cs) || containsText pat cs

/-- Blank of awk's default field splitting: space, tab, newline. -/
def awkIsBlank (c : Char) : Bool :=
  c.toNat = 32 || c.toNat = 9 || c.toNat = 10

/-- Model of the command `awk "/MemTotal/ {print $2}"` of `getTotalMemoryB`
applied to the content of the memory-info file: for every line that contains
`MemTotal`, the second blank-separated field of the line (empty when there is
none) followed by a newline. -/
def awkMemTotal (meminfo : String) : String :=
  String.join
    (((splitChars (Char.ofNat 10) meminfo.data).filter (containsText "MemTotal".data)).map
      fun line => String.mk (((words awkIsBlank line).get? 1).getD []) ++ "\n")

/-- A `dmidecode -t 17` output that lists two memory devices with sizes. -/
def sampleDmidecode : String :=
  "Handle 0x0040, DMI type 17, 34 bytes\nMemory Device\n\tTotal Width: 64 bits\n" ++
  "\tSize: 4096 MB\n\tForm Factor: SODIMM\n\nHandle 0x0041, DMI type 17, 34 bytes\n" ++
  "Memory Device\n\tSize: 8192 MB\n\tLocator: DIMM B\n"

/-! ## Example hosts -/

/-- A global storage whose target root is `/tmp/calamares-root`. -/
def exampleStorage : GlobalStorage :=
  { entries := [("rootMountPoint", "/tmp/calamares-root")] }

/-- A host on which `/tmp/calamares-root` and `/tmp` are the existing
directories, every directory can be created, every process starts, `mount`
exits with `mountStatus`, and a chroot process behaves as `run` says. -/
def exampleHost (mountStatus : Int) (run : ProcessConfig → Option String → ProcessRun) :
    Host :=
  { jobQueueInstance := some { globalStorage := some exampleStorage }
    dirExists := fun p => p = "/tmp/calamares-root" || p = "/tmp"
    mkpath := fun _ => true
    absolutePath := fun p => p
    execute := fun _ _ => mountStatus
    waitForStarted := fun _ => true
    run := run }

/-- A process that exits normally with `code` after `ms` milliseconds and has
written `text`. -/
def exitsWith (code ms : Nat) (text : String) : ProcessConfig → Option String → ProcessRun :=
  fun _ _ => { duration := some ms, exitStatus := .NormalExit, exitCode := code, output := text }

/-- A process that copies its input to its output once the input channel is
closed, and exits with 0; while the channel stays open it never finishes. -/
def echoesStdin : ProcessConfig → Option String → ProcessRun :=
  fun _ input =>
    match input with
    | some text => { duration := some 5, exitStatus := .NormalExit, exitCode := 0, output := text }
    | none => { duration := none, exitStatus := .NormalExit, exitCode := 0, output := "" }

/-- A host without a job queue. -/
def hostWithoutJobQueue : Host :=
  { exampleHost 0 (exitsWith 0 1 "") with jobQueueInstance := none }

/-- The process configuration `chrootOutput` builds for target root `destDir`
and arguments `args`. -/
def chrootConfig (destDir : String) (args : List String) : ProcessConfig :=
  { program := "chroot", arguments := [destDir] ++ args, channelMode := .MergedChannels,
    workingDirectory := none }

/-- What `chrootOutput` hands to the input channel of the process: the payload,
after which the channel is closed, or nothing when the payload is empty. -/
def stdinFeed (stdInput : String) : Option String :=
  if stdInput ≠ "" then some stdInput else none

/-- The effects of a `chrootOutput` call that got as far as waiting for the
process. -/
def chrootEffects (destDir : String) (args : List String) (stdInput : String)
    (timeoutSec : Int) : List Effect :=
  [Effect.start (chrootConfig destDir args)] ++
  (if stdInput ≠ "" then [Effect.write stdInput, Effect.closeWriteChannel] else []) ++
  [Effect.waitForFinished (waitBound timeoutSec)]

/-- Property of an outcome: every effect of it that creates a process is the
start of the program `chroot` with the argument vector
`[rootMountPoint value] ++ args`. -/
def SpawnsOnlyChroot (host : Host) (args : List String) (o : Outcome) : Prop :=
  ∀ e ∈ o.effects, e.spawns = true →
    ∃ jobQueue gs config,
      host.jobQueueInstance = some jobQueue ∧ jobQueue.globalStorage = some gs ∧
      e = Effect.start config ∧ config.program = "chroot" ∧
      config.arguments = [gs.value "rootMountPoint"] ++ args

/-! ## Basic facts -/

/-- Clearing a buffer leaves the empty string. -/
@[simp] theorem clear_eq (content : String) : clear content = "" := rfl

/-! ## `mount`: theorems -/

/-- C5: when `devicePath` or `mountPoint` is empty, `mount` returns -3 and
performs no external effect at all: no directory is created and no process is
spawned. -/
theorem mount_empty_argument (host : Host) (devicePath mountPoint filesystemName options : String)
    (h : devicePath = "" ∨ mountPoint = "") :
    mount host devicePath mountPoint filesystemName options =
      { ret := -3, output := "", effects := [] } := by
  unfold mount
  rcases h with h | h <;> simp [h]

/-- Witness for C5: an empty mount point with a non-empty device. -/
theorem mount_empty_argument_witness :
    ("/dev/sda1" = "" ∨ ("" : String) = "") ∧
    mount (exampleHost 0 (exitsWith 0 1 "")) "/dev/sda1" "" "ext4" "rw" =
      { ret := -3, output := "", effects := [] } :=
  ⟨Or.inr rfl, mount_empty_argument _ "/dev/sda1" "" "ext4" "rw" (Or.inr rfl)⟩

/-- C6: with non-empty `devicePath` and `mountPoint` and a mount point that
exists or is created successfully, `mount` runs exactly one process, the program
`mount` with arguments `[devicePath, mountPoint]`, then `-t filesystemName`
when that is non-empty, then `-o options` when that is non-empty, and returns
what `QProcess::execute` returns for it; the only other effect is the creation
of a missing mount point. -/
theorem mount_runs_mount_utility (host : Host)
    (devicePath mountPoint filesystemName options : String)
    (hd : devicePath ≠ "") (hm : mountPoint ≠ "")
    (hdir : host.dirExists mountPoint = true ∨ host.mkpath mountPoint = true) :
    (mount host devicePath mountPoint filesystemName options).ret =
        host.execute "mount"
          ([devicePath, mountPoint] ++
            (if filesystemName ≠ "" then ["-t", filesystemName] else []) ++
            (if options ≠ "" then ["-o", options] else [])) ∧
    (mount host devicePath mountPoint filesystemName options).effects =
        (if host.dirExists mountPoint = true then [] else [Effect.mkpath mountPoint]) ++
        [Effect.execute "mount"
          ([devicePath, mountPoint] ++
            (if filesystemName ≠ "" then ["-t", filesystemName] else []) ++
            (if options ≠ "" then ["-o", options] else []))] := by
  unfold mount
  by_cases he : host.dirExists mountPoint = true
  · by_cases hf : filesystemName = "" <;> by_cases ho : options = "" <;>
      simp [hd, hm, he, hf, ho]
  · have hk : host.mkpath mountPoint = true := by
      rcases hdir with h | h
      · exact absurd h he
      · exact h
    by_cases hf : filesystemName = "" <;> by_cases ho : options = "" <;>
      simp [hd, hm, he, hk, hf, ho]

/-- Witness for C6: a missing mount point that is created, a filesystem type
and no options; the mount utility exits with 32 and `mount` returns 32. -/
theorem mount_runs_mount_utility_witness :
    (mount (exampleHost 32 (exitsWith 0 1 "")) "/dev/sda1" "/mnt/data" "ext4" "").ret = 32 ∧
    (mount (exampleHost 32 (exitsWith 0 1 "")) "/dev/sda1" "/mnt/data" "ext4" "").effects =
      [Effect.mkpath "/mnt/data",
       Effect.execute "mount" ["/dev/sda1", "/mnt/data", "-t", "ext4"]] :=
  mount_runs_mount_utility (exampleHost 32 (exitsWith 0 1 "")) "/dev/sda1" "/mnt/data" "ext4" ""
    (by decide) (by decide) (Or.inr rfl)

/-! ## `chrootOutput`: precondition failures -/

/-- Without a usable target root `chrootOutput` stops at once: -3, an empty
buffer, no effect. -/
theorem chrootOutput_of_unusable_root (host : Host) (args : List String)
    (output workingPath stdInput : String) (timeoutSec : Int)
    (h : host.jobQueueInstance = none ∨
      ∃ jobQueue, host.jobQueueInstance = some jobQueue ∧
        (jobQueue.globalStorage = none ∨
          ∃ gs, jobQueue.globalStorage = some gs ∧
            (gs.contains "rootMountPoint" = false ∨
              host.dirExists (gs.value "rootMountPoint") = false))) :
    chrootOutput host args output workingPath stdInput timeoutSec =
      .returned { ret := -3, output := "", effects := [] } := by
  unfold chrootOutput
  rcases h with h | ⟨jobQueue, hq, h⟩
  · simp [h]
  · rcases h with h | ⟨gs, hg, h⟩
    · simp [hq, h]
    · rcases h with h | h
      · simp [hq, hg, h]
      · by_cases hc : gs.contains "rootMountPoint" = true
        · simp [hq, hg, hc, h]
        · simp [hq, hg, hc]

/-- C2: when there is no job-queue instance, or it has no global storage, or
the storage has no `rootMountPoint` entry, or the value of that entry does not
name an existing directory, `chrootOutput` returns -3 with an empty output
buffer and without any external effect (no process is spawned), whatever the
arguments, the working path, the input, the timeout and the previous content
of the buffer. -/
theorem chrootOutput_target_root_missing (host : Host) (args : List String)
    (output workingPath stdInput : String) (timeoutSec : Int)
    (h : host.jobQueueInstance = none ∨
      ∃ jobQueue, host.jobQueueInstance = some jobQueue ∧
        (jobQueue.globalStorage = none ∨
          ∃ gs, jobQueue.globalStorage = some gs ∧
            (gs.contains "rootMountPoint" = false ∨
              host.dirExists (gs.value "rootMountPoint") = false))) :
    chrootOutput host args output workingPath stdInput timeoutSec =
        .returned { ret := -3, output := "", effects := [] } ∧
    (∀ e ∈ (chrootOutput host args output workingPath stdInput timeoutSec).effects,
      e.spawns = false) := by
  have hr := chrootOutput_of_unusable_root host args output workingPath stdInput timeoutSec h
  refine ⟨hr, ?_⟩
  rw [hr]
  intro e he
  simp [Outcome.effects] at he

/-- Witness for C2: a host without a job queue, a buffer holding old text. -/
theorem chrootOutput_target_root_missing_witness :
    hostWithoutJobQueue.jobQueueInstance = none ∧
    chrootOutput hostWithoutJobQueue ["ls", "/"] "stale text" "/tmp" "input" 3 =
      .returned { ret := -3, output := "", effects := [] } :=
  ⟨rfl, (chrootOutput_target_root_missing hostWithoutJobQueue ["ls", "/"] "stale text" "/tmp"
    "input" 3 (Or.inl rfl)).1⟩

/-- C3: when the target root is configured and exists and `workingPath` is
non-empty but does not name an existing directory, `chrootOutput` returns -3
and performs no external effect: the process object is configured but never
started. -/
theorem chrootOutput_working_path_missing (host : Host) (jobQueue : JobQueue)
    (gs : GlobalStorage) (args : List String) (output workingPath stdInput : String)
    (timeoutSec : Int)
    (hq : host.jobQueueInstance = some jobQueue) (hg : jobQueue.globalStorage = some gs)
    (hc : gs.contains "rootMountPoint" = true)
    (hroot : host.dirExists (gs.value "rootMountPoint") = true)
    (hw : workingPath ≠ "") (_hmissing : host.dirExists workingPath = false) :
    chrootOutput host args output workingPath stdInput timeoutSec =
      .returned { ret := -3, output := "", effects := [] } := by
  unfold chrootOutput
  simp [hq, hg, hc, hroot, hw]

/-- Witness for C3: the working path `/nonexistent` on the example host. -/
theorem chrootOutput_working_path_missing_witness :
    (exampleHost 0 (exitsWith 0 1 "")).dirExists "/nonexistent" = false ∧
    chrootOutput (exampleHost 0 (exitsWith 0 1 "")) ["ls"] "stale" "/nonexistent" "" 0 =
      .returned { ret := -3, output := "", effects := [] } :=
  ⟨by decide,
   chrootOutput_working_path_missing (exampleHost 0 (exitsWith 0 1 ""))
    { globalStorage := some exampleStorage } exampleStorage ["ls"] "stale" "/nonexistent" "" 0
    rfl rfl (by decide) (by decide) (by decide) (by decide)⟩

/-! ## `chrootOutput`: the run of the process -/

/-- The process `chrootOutput` runs did not start: -2, nothing captured. -/
theorem chrootOutput_not_started (host : Host) (jobQueue : JobQueue)
    (gs : GlobalStorage) (args : List String) (output stdInput : String) (timeoutSec : Int)
    (hq : host.jobQueueInstance = some jobQueue) (hg : jobQueue.globalStorage = some gs)
    (hc : gs.contains "rootMountPoint" = true)
    (hroot : host.dirExists (gs.value "rootMountPoint") = true)
    (hs : host.waitForStarted (chrootConfig (gs.value "rootMountPoint") args) = false) :
    chrootOutput host args output "" stdInput timeoutSec =
      .returned { ret := -2, output := ""
                  effects := [Effect.start (chrootConfig (gs.value "rootMountPoint") args)] } := by
  simp only [chrootConfig, List.singleton_append] at hs
  simp [chrootOutput, hq, hg, hc, hroot, chrootConfig, ProcessConfig.fresh, hs]

/-- The wait of `chrootOutput` ended with the answer `finished`. -/
theorem chrootOutput_waited (host : Host) (jobQueue : JobQueue)
    (gs : GlobalStorage) (args : List String) (output stdInput : String) (timeoutSec : Int)
    (finished : Bool)
    (hq : host.jobQueueInstance = some jobQueue) (hg : jobQueue.globalStorage = some gs)
    (hc : gs.contains "rootMountPoint" = true)
    (hroot : host.dirExists (gs.value "rootMountPoint") = true)
    (hs : host.waitForStarted (chrootConfig (gs.value "rootMountPoint") args) = true)
    (hw : (host.run (chrootConfig (gs.value "rootMountPoint") args)
        (stdinFeed stdInput)).waitForFinished (waitBound timeoutSec) = some finished) :
    chrootOutput host args output "" stdInput timeoutSec =
      .returned
        { ret :=
            if finished = false then -4
            else if (host.run (chrootConfig (gs.value "rootMountPoint") args)
                (stdinFeed stdInput)).exitStatus = .CrashExit then -1
            else ((host.run (chrootConfig (gs.value "rootMountPoint") args)
                (stdinFeed stdInput)).exitCode : Int)
          output :=
            if finished = false then ""
            else trimmed (host.run (chrootConfig (gs.value "rootMountPoint") args)
                (stdinFeed stdInput)).output
          effects := chrootEffects (gs.value "rootMountPoint") args stdInput timeoutSec } := by
  simp only [chrootConfig, stdinFeed, List.singleton_append, ne_eq, ite_not] at hs hw
  cases finished
  · simp [chrootOutput, hq, hg, hc, hroot, chrootConfig, ProcessConfig.fresh, stdinFeed,
      chrootEffects, hs, hw]
  · simp only [chrootOutput, hq, hg, hc, hroot, chrootConfig, ProcessConfig.fresh, stdinFeed,
      chrootEffects, List.singleton_append, ne_eq, ite_not, hs, hw]
    split_ifs <;> simp_all

/-- The wait of `chrootOutput` never ends: the call does not return. -/
theorem chrootOutput_blocked (host : Host) (jobQueue : JobQueue)
    (gs : GlobalStorage) (args : List String) (output stdInput : String) (timeoutSec : Int)
    (hq : host.jobQueueInstance = some jobQueue) (hg : jobQueue.globalStorage = some gs)
    (hc : gs.contains "rootMountPoint" = true)
    (hroot : host.dirExists (gs.value "rootMountPoint") = true)
    (hs : host.waitForStarted (chrootConfig (gs.value "rootMountPoint") args) = true)
    (hw : (host.run (chrootConfig (gs.value "rootMountPoint") args)
        (stdinFeed stdInput)).waitForFinished (waitBound timeoutSec) = none) :
    chrootOutput host args output "" stdInput timeoutSec =
      .blocked (chrootEffects (gs.value "rootMountPoint") args stdInput timeoutSec) := by
  simp only [chrootConfig, stdinFeed, List.singleton_append, ne_eq, ite_not] at hs hw
  simp [chrootOutput, hq, hg, hc, hroot, chrootConfig, ProcessConfig.fresh, stdinFeed,
    chrootEffects, hs, hw]

/-- Whenever a working path is given, existing or not, `chrootOutput` returns
-3 without starting the process. -/
theorem chrootOutput_working_path_given (host : Host) (jobQueue : JobQueue)
    (gs : GlobalStorage) (args : List String) (output workingPath stdInput : String)
    (timeoutSec : Int)
    (hq : host.jobQueueInstance = some jobQueue) (hg : jobQueue.globalStorage = some gs)
    (hc : gs.contains "rootMountPoint" = true)
    (hroot : host.dirExists (gs.value "rootMountPoint") = true)
    (hw : workingPath ≠ "") :
    chrootOutput host args output workingPath stdInput timeoutSec =
      .returned { ret := -3, output := "", effects := [] } := by
  unfold chrootOutput
  simp [hq, hg, hc, hroot, hw]

/-- The only process-creating effect among `chrootEffects` is the start of
the chroot configuration. -/
theorem spawns_of_mem_chrootEffects (destDir : String) (args : List String) (stdInput : String)
    (timeoutSec : Int) (e : Effect)
    (he : e ∈ chrootEffects destDir args stdInput timeoutSec) (hsp : e.spawns = true) :
    e = Effect.start (chrootConfig destDir args) := by
  unfold chrootEffects at he
  by_cases hi : stdInput = ""
  · simp [hi] at he
    rcases he with h | h
    · exact h
    · subst h; simp [Effect.spawns] at hsp
  · simp [hi] at he
    rcases he with h | h | h | h
    · exact h
    · subst h; simp [Effect.spawns] at hsp
    · subst h; simp [Effect.spawns] at hsp
    · subst h; simp [Effect.spawns] at hsp

/-- Every process `chrootOutput` creates is `chroot` applied to the target
root followed by the caller's arguments. -/
theorem chrootOutput_spawnsOnlyChroot (host : Host) (args : List String)
    (output workingPath stdInput : String) (timeoutSec : Int) :
    SpawnsOnlyChroot host args (chrootOutput host args output workingPath stdInput timeoutSec) := by
  intro e he hsp
  cases hq : host.jobQueueInstance with
  | none =>
    rw [chrootOutput_of_unusable_root host args output workingPath stdInput timeoutSec
      (Or.inl hq)] at he
    simp [Outcome.effects] at he
  | some jobQueue =>
    cases hg : jobQueue.globalStorage with
    | none =>
      rw [chrootOutput_of_unusable_root host args output workingPath stdInput timeoutSec
        (Or.inr ⟨jobQueue, hq, Or.inl hg⟩)] at he
      simp [Outcome.effects] at he
    | some gs =>
      by_cases hc : gs.contains "rootMountPoint" = true
      swap
      · rw [chrootOutput_of_unusable_root host args output workingPath stdInput timeoutSec
          (Or.inr ⟨jobQueue, hq, Or.inr ⟨gs, hg, Or.inl (by simpa using hc)⟩⟩)] at he
        simp [Outcome.effects] at he
      by_cases hroot : host.dirExists (gs.value "rootMountPoint") = true
      swap
      · rw [chrootOutput_of_unusable_root host args output workingPath stdInput timeoutSec
          (Or.inr ⟨jobQueue, hq, Or.inr ⟨gs, hg, Or.inr (by simpa using hroot)⟩⟩)] at he
        simp [Outcome.effects] at he
      by_cases hw : workingPath = ""
      swap
      · rw [chrootOutput_working_path_given host jobQueue gs args output workingPath stdInput
          timeoutSec hq hg hc hroot hw] at he
        simp [Outcome.effects] at he
      subst hw
      refine ⟨jobQueue, gs, chrootConfig (gs.value "rootMountPoint") args,
        rfl, hg, ?_, rfl, rfl⟩
      by_cases hs : host.waitForStarted (chrootConfig (gs.value "rootMountPoint") args) = true
      swap
      · rw [chrootOutput_not_started host jobQueue gs args output stdInput timeoutSec hq hg hc
          hroot (by simpa using hs)] at he
        simpa [Outcome.effects] using he
      cases hwf : (host.run (chrootConfig (gs.value "rootMountPoint") args)
          (stdinFeed stdInput)).waitForFinished (waitBound timeoutSec) with
      | none =>
        rw [chrootOutput_blocked host jobQueue gs args output stdInput timeoutSec hq hg hc
          hroot hs hwf] at he
        exact spawns_of_mem_chrootEffects _ _ _ _ e he hsp
      | some finished =>
        rw [chrootOutput_waited host jobQueue gs args output stdInput timeoutSec finished hq hg
          hc hroot hs hwf] at he
        exact spawns_of_mem_chrootEffects _ _ _ _ e he hsp

/-- C4: every process spawned by `chrootOutput`, by `chrootCall` and by their
single-command overloads is the program `chroot` with the argument vector
`[rootMountPoint value] ++ args` (`args = [command]` for the overloads), the
caller's arguments unchanged and in order and never the program; and when the
target root is configured and exists and no working path is given, that
process is indeed started. -/
theorem chroot_spawns_chroot_with_root_and_args (host : Host) (args : List String)
    (command output workingPath stdInput : String) (timeoutSec : Int) :
    SpawnsOnlyChroot host args (chrootOutput host args output workingPath stdInput timeoutSec) ∧
    SpawnsOnlyChroot host args (chrootCall host args workingPath stdInput timeoutSec) ∧
    SpawnsOnlyChroot host [command]
      (chrootOutputCommand host command output workingPath stdInput timeoutSec) ∧
    SpawnsOnlyChroot host [command]
      (chrootCallCommand host command workingPath stdInput timeoutSec) ∧
    (∀ jobQueue gs, host.jobQueueInstance = some jobQueue → jobQueue.globalStorage = some gs →
      gs.contains "rootMountPoint" = true → host.dirExists (gs.value "rootMountPoint") = true →
      Effect.start
          { program := "chroot", arguments := [gs.value "rootMountPoint"] ++ args,
            channelMode := .MergedChannels, workingDirectory := none } ∈
        (chrootOutput host args output "" stdInput timeoutSec).effects) := by
  refine ⟨chrootOutput_spawnsOnlyChroot host args output workingPath stdInput timeoutSec,
    chrootOutput_spawnsOnlyChroot host args "" workingPath stdInput timeoutSec,
    chrootOutput_spawnsOnlyChroot host [command] output workingPath stdInput timeoutSec,
    chrootOutput_spawnsOnlyChroot host [command] "" workingPath stdInput timeoutSec, ?_⟩
  intro jobQueue gs hq hg hc hroot
  change Effect.start (chrootConfig (gs.value "rootMountPoint") args) ∈ _
  by_cases hs : host.waitForStarted (chrootConfig (gs.value "rootMountPoint") args) = true
  swap
  · rw [chrootOutput_not_started host jobQueue gs args output stdInput timeoutSec hq hg hc
      hroot (by simpa using hs)]
    simp [Outcome.effects]
  cases hwf : (host.run (chrootConfig (gs.value "rootMountPoint") args)
      (stdinFeed stdInput)).waitForFinished (waitBound timeoutSec) with
  | none =>
    rw [chrootOutput_blocked host jobQueue gs args output stdInput timeoutSec hq hg hc
      hroot hs hwf]
    simp [Outcome.effects, chrootEffects]
  | some finished =>
    rw [chrootOutput_waited host jobQueue gs args output stdInput timeoutSec finished hq hg
      hc hroot hs hwf]
    simp [Outcome.effects, chrootEffects]

/-- Witness for C4: on the example host a call with the arguments `ls -l`
starts `chroot /tmp/calamares-root ls -l`. -/
theorem chroot_spawns_chroot_with_root_and_args_witness :
    Effect.start
        { program := "chroot", arguments := ["/tmp/calamares-root", "ls", "-l"],
          channelMode := .MergedChannels, workingDirectory := none } ∈
      (chrootOutput (exampleHost 0 (exitsWith 0 1 "")) ["ls", "-l"] "" "" "" 0).effects :=
  (chroot_spawns_chroot_with_root_and_args (exampleHost 0 (exitsWith 0 1 "")) ["ls", "-l"] "ls"
    "" "" "" 0).2.2.2.2 { globalStorage := some exampleStorage } exampleStorage rfl rfl
    (by decide) (by decide)

/-! ## `chrootOutput`: exit code, timeout, captured output -/

/-- C1 (the code at the failing input): on a host whose target root and `/tmp`
both exist, on which every process starts and the chroot process exits
normally with 7 after 20 ms, the call with working path `/tmp` returns -3 and
starts nothing, while the same call without a working path returns 7. -/
theorem chrootOutput_existing_working_path_gives_minus3 :
    (exampleHost 0 (exitsWith 7 20 "")).dirExists "/tmp/calamares-root" = true ∧
    (exampleHost 0 (exitsWith 7 20 "")).dirExists "/tmp" = true ∧
    (exampleHost 0 (exitsWith 7 20 "")).waitForStarted
        { chrootConfig "/tmp/calamares-root" ["sh", "-c", "exit 7"] with
          workingDirectory := some "/tmp" } = true ∧
    (exampleHost 0 (exitsWith 7 20 "")).run
        { chrootConfig "/tmp/calamares-root" ["sh", "-c", "exit 7"] with
          workingDirectory := some "/tmp" } none =
      { duration := some 20, exitStatus := .NormalExit, exitCode := 7, output := "" } ∧
    chrootOutput (exampleHost 0 (exitsWith 7 20 "")) ["sh", "-c", "exit 7"] "" "/tmp" "" 0 =
      .returned { ret := -3, output := "", effects := [] } ∧
    chrootOutput (exampleHost 0 (exitsWith 7 20 "")) ["sh", "-c", "exit 7"] "" "" "" 0 =
      .returned
        { ret := 7, output := ""
          effects :=
            [Effect.start (chrootConfig "/tmp/calamares-root" ["sh", "-c", "exit 7"]),
             Effect.waitForFinished (-1)] } := by
  decide

/-- The wait bound of a zero timeout is Qt's "no timeout" value. -/
theorem waitBound_zero : waitBound 0 = -1 := by
  decide

/-- A non-zero timeout never yields the "no timeout" value, wrapped or not:
a multiple of 1000 is even. -/
theorem waitBound_ne_neg_one (timeoutSec : Int) (h : timeoutSec ≠ 0) :
    waitBound timeoutSec ≠ -1 := by
  unfold waitBound wrapInt32 wrapSigned
  simp only [h, ne_eq, not_false_eq_true, if_true]
  norm_num
  omega

/-- As long as the product does not fall below the least `int`, the wait bound
is at most `timeoutSec * 1000`. -/
theorem waitBound_le (timeoutSec : Int) (h : timeoutSec ≠ 0)
    (hlow : -2147483648 ≤ timeoutSec * 1000) :
    waitBound timeoutSec ≤ timeoutSec * 1000 := by
  unfold waitBound wrapInt32 wrapSigned
  simp only [h, ne_eq, not_false_eq_true, if_true]
  norm_num
  omega

/-- When the product is representable in an `int`, the wait bound is the
product. -/
theorem waitBound_eq (timeoutSec : Int) (h : timeoutSec ≠ 0)
    (hfit : fitsSigned 32 (timeoutSec * 1000)) :
    waitBound timeoutSec = timeoutSec * 1000 := by
  unfold fitsSigned at hfit
  unfold waitBound wrapInt32 wrapSigned
  simp only [h, ne_eq, not_false_eq_true, if_true]
  norm_num at hfit ⊢
  omega

/-- C9: for a call whose target root is configured and exists and whose
process is started by the call and starts (which the code allows only with an
empty `workingPath`): (1) with a positive `timeoutSec`, if the process does
not finish within `timeoutSec * 1000` milliseconds then the call returns -4
with an empty output buffer, whatever the process has written and whatever the
buffer held; (2) the same holds for every non-zero `timeoutSec` whose product
`timeoutSec * 1000` is not below the least `int`, a negative bound being a
wait of no time; (3) in terms of the bound the code computes, for every
non-zero `timeoutSec`: if the process does not finish within
`waitBound timeoutSec` milliseconds the call returns -4 with an empty buffer;
(4) that bound is `timeoutSec * 1000` whenever the product is representable in
an `int`; (5) with `timeoutSec = 0` the wait bound is -1 (unbounded), a
process that finishes at any time yields -1 or its exit code and never -4,
and a process that never finishes keeps the call from returning. -/
theorem chrootOutput_timeout (host : Host) (jobQueue : JobQueue) (gs : GlobalStorage)
    (args : List String) (output workingPath stdInput : String) (timeoutSec : Int)
    (hq : host.jobQueueInstance = some jobQueue) (hg : jobQueue.globalStorage = some gs)
    (hc : gs.contains "rootMountPoint" = true)
    (hroot : host.dirExists (gs.value "rootMountPoint") = true)
    (hstart : Effect.start (chrootConfig (gs.value "rootMountPoint") args) ∈
      (chrootOutput host args output workingPath stdInput timeoutSec).effects)
    (hs : host.waitForStarted (chrootConfig (gs.value "rootMountPoint") args) = true) :
    (0 < timeoutSec →
      (∀ d : Nat, (host.run (chrootConfig (gs.value "rootMountPoint") args)
          (stdinFeed stdInput)).duration = some d → timeoutSec * 1000 < d) →
      chrootOutput host args output workingPath stdInput timeoutSec =
        .returned
          { ret := -4, output := ""
            effects := chrootEffects (gs.value "rootMountPoint") args stdInput timeoutSec }) ∧
    (timeoutSec ≠ 0 → -2147483648 ≤ timeoutSec * 1000 →
      (∀ d : Nat, (host.run (chrootConfig (gs.value "rootMountPoint") args)
          (stdinFeed stdInput)).duration = some d → max (timeoutSec * 1000) 0 < d) →
      chrootOutput host args output workingPath stdInput timeoutSec =
        .returned
          { ret := -4, output := ""
            effects := chrootEffects (gs.value "rootMountPoint") args stdInput timeoutSec }) ∧
    (timeoutSec ≠ 0 →
      (∀ d : Nat, (host.run (chrootConfig (gs.value "rootMountPoint") args)
          (stdinFeed stdInput)).duration = some d → max (waitBound timeoutSec) 0 < d) →
      chrootOutput host args output workingPath stdInput timeoutSec =
        .returned
          { ret := -4, output := ""
            effects := chrootEffects (gs.value "rootMountPoint") args stdInput timeoutSec }) ∧
    (timeoutSec ≠ 0 → fitsSigned 32 (timeoutSec * 1000) →
      waitBound timeoutSec = timeoutSec * 1000) ∧
    (timeoutSec = 0 →
      waitBound timeoutSec = -1 ∧
      (∀ d : Nat, (host.run (chrootConfig (gs.value "rootMountPoint") args)
          (stdinFeed stdInput)).duration = some d →
        ∃ r, chrootOutput host args output workingPath stdInput timeoutSec = .returned r ∧
          r.ret ≠ -4 ∧
          (r.ret = -1 ∨ r.ret = ((host.run (chrootConfig (gs.value "rootMountPoint") args)
            (stdinFeed stdInput)).exitCode : Int))) ∧
      ((host.run (chrootConfig (gs.value "rootMountPoint") args)
          (stdinFeed stdInput)).duration = none →
        chrootOutput host args output workingPath stdInput timeoutSec =
          .blocked (chrootEffects (gs.value "rootMountPoint") args stdInput timeoutSec))) := by
  have hwp : workingPath = "" := by
    by_contra hne
    rw [chrootOutput_working_path_given host jobQueue gs args output workingPath stdInput
      timeoutSec hq hg hc hroot hne] at hstart
    simp [Outcome.effects] at hstart
  subst hwp
  have key : timeoutSec ≠ 0 →
      (∀ d : Nat, (host.run (chrootConfig (gs.value "rootMountPoint") args)
          (stdinFeed stdInput)).duration = some d → max (waitBound timeoutSec) 0 < d) →
      chrootOutput host args output "" stdInput timeoutSec =
        .returned
          { ret := -4, output := ""
            effects := chrootEffects (gs.value "rootMountPoint") args stdInput timeoutSec } := by
    intro hne hslow
    have hb := waitBound_ne_neg_one timeoutSec hne
    have hwf : (host.run (chrootConfig (gs.value "rootMountPoint") args)
        (stdinFeed stdInput)).waitForFinished (waitBound timeoutSec) = some false := by
      unfold ProcessRun.waitForFinished
      cases hd : (host.run (chrootConfig (gs.value "rootMountPoint") args)
          (stdinFeed stdInput)).duration with
      | none => simp [hb]
      | some d =>
        have := hslow d hd
        simp only [hb, if_false, Option.some.injEq, decide_eq_false_iff_not, not_le]
        exact this
    rw [chrootOutput_waited host jobQueue gs args output stdInput timeoutSec false hq hg hc
      hroot hs hwf]
    simp
  have key2 : timeoutSec ≠ 0 → -2147483648 ≤ timeoutSec * 1000 →
      (∀ d : Nat, (host.run (chrootConfig (gs.value "rootMountPoint") args)
          (stdinFeed stdInput)).duration = some d → max (timeoutSec * 1000) 0 < d) →
      chrootOutput host args output "" stdInput timeoutSec =
        .returned
          { ret := -4, output := ""
            effects := chrootEffects (gs.value "rootMountPoint") args stdInput timeoutSec } := by
    intro hne hlow hslow
    have hle := waitBound_le timeoutSec hne hlow
    exact key hne (fun d hd => lt_of_le_of_lt (max_le_max hle le_rfl) (hslow d hd))
  refine ⟨?_, key2, key, ?_, ?_⟩
  · intro hpos hslow
    refine key2 (ne_of_gt hpos) (by omega) (fun d hd => ?_)
    have := hslow d hd
    rw [max_eq_left (by omega)]
    exact this
  · intro hne hfit
    exact waitBound_eq timeoutSec hne hfit
  · intro hz
    subst hz
    refine ⟨waitBound_zero, ?_, ?_⟩
    · intro d hd
      have hwf : (host.run (chrootConfig (gs.value "rootMountPoint") args)
          (stdinFeed stdInput)).waitForFinished (waitBound 0) = some true := by
        unfold ProcessRun.waitForFinished
        simp [hd, waitBound_zero]
      rw [chrootOutput_waited host jobQueue gs args output stdInput 0 true hq hg hc
        hroot hs hwf]
      refine ⟨_, rfl, ?_, ?_⟩
      · simp only [Bool.true_eq_false, if_false]
        split_ifs
        · decide
        · omega
      · simp only [Bool.true_eq_false, if_false]
        split_ifs
        · exact Or.inl rfl
        · exact Or.inr rfl
    · intro hd
      have hwf : (host.run (chrootConfig (gs.value "rootMountPoint") args)
          (stdinFeed stdInput)).waitForFinished (waitBound 0) = none := by
        unfold ProcessRun.waitForFinished
        simp [hd, waitBound_zero]
      exact chrootOutput_blocked host jobQueue gs args output stdInput 0 hq hg hc hroot hs hwf

/-- Witness for C9: a process that needs 5000 ms and has written text, a
timeout of 2 seconds, a buffer holding old text. -/
theorem chrootOutput_timeout_witness :
    chrootOutput (exampleHost 0 (exitsWith 0 5000 "partial output")) ["sleep", "5"] "old text"
        "" "" 2 =
      .returned
        { ret := -4, output := ""
          effects :=
            [Effect.start (chrootConfig "/tmp/calamares-root" ["sleep", "5"]),
             Effect.waitForFinished 2000] } :=
  (chrootOutput_timeout (exampleHost 0 (exitsWith 0 5000 "partial output"))
    { globalStorage := some exampleStorage } exampleStorage ["sleep", "5"] "old text" "" "" 2
    rfl rfl (by decide) (by decide) (by decide) (by decide)).1 (by decide)
    (by
      intro d hd
      have h5 : d = 5000 := by
        simpa [exampleHost, exitsWith] using hd.symm
      subst h5
      decide)

/-- C10: for a call without working path whose target root is configured and
exists, whose process starts, is reported finished by the wait and exited
normally, the call returns the exit code and the output buffer holds exactly
the trimmed output of the process, whatever it held before; a non-empty input
payload is written and the input channel closed right after the start, and the
process runs on that payload. -/
theorem chrootOutput_captured_output (host : Host) (jobQueue : JobQueue) (gs : GlobalStorage)
    (args : List String) (output stdInput : String) (timeoutSec : Int)
    (hq : host.jobQueueInstance = some jobQueue) (hg : jobQueue.globalStorage = some gs)
    (hc : gs.contains "rootMountPoint" = true)
    (hroot : host.dirExists (gs.value "rootMountPoint") = true)
    (hs : host.waitForStarted (chrootConfig (gs.value "rootMountPoint") args) = true)
    (hfin : (host.run (chrootConfig (gs.value "rootMountPoint") args)
        (stdinFeed stdInput)).waitForFinished (waitBound timeoutSec) = some true)
    (hnormal : (host.run (chrootConfig (gs.value "rootMountPoint") args)
        (stdinFeed stdInput)).exitStatus = .NormalExit) :
    chrootOutput host args output "" stdInput timeoutSec =
      .returned
        { ret := ((host.run (chrootConfig (gs.value "rootMountPoint") args)
            (stdinFeed stdInput)).exitCode : Int)
          output := trimmed (host.run (chrootConfig (gs.value "rootMountPoint") args)
            (stdinFeed stdInput)).output
          effects := chrootEffects (gs.value "rootMountPoint") args stdInput timeoutSec } ∧
    (stdInput ≠ "" →
      stdinFeed stdInput = some stdInput ∧
      chrootEffects (gs.value "rootMountPoint") args stdInput timeoutSec =
        [Effect.start (chrootConfig (gs.value "rootMountPoint") args), Effect.write stdInput,
         Effect.closeWriteChannel, Effect.waitForFinished (waitBound timeoutSec)]) := by
  constructor
  · rw [chrootOutput_waited host jobQueue gs args output stdInput timeoutSec true hq hg hc
      hroot hs hfin]
    simp [hnormal]
  · intro hne
    simp [stdinFeed, chrootEffects, hne]

/-- Witness for C10: the payload `hello` followed by a newline, a process that
echoes its input, and a buffer holding old text: the call returns 0 and the
buffer holds `hello`. -/
theorem chrootOutput_captured_output_witness :
    chrootOutput (exampleHost 0 echoesStdin) ["cat"] "old text" "" "hello\n" 0 =
      .returned
        { ret := 0, output := "hello"
          effects :=
            [Effect.start (chrootConfig "/tmp/calamares-root" ["cat"]), Effect.write "hello\n",
             Effect.closeWriteChannel, Effect.waitForFinished (-1)] } :=
  (chrootOutput_captured_output (exampleHost 0 echoesStdin)
    { globalStorage := some exampleStorage } exampleStorage ["cat"] "old text" "hello\n" 0
    rfl rfl (by decide) (by decide) (by decide) (by decide) (by decide)).1

/-! ## Memory probes: theorems -/

/-- The loop of `getPhysicalMemoryB` over no lines leaves the sum untouched. -/
theorem sumSizes_nil (availableRamMb : Int) : sumSizes [] availableRamMb = some availableRamMb :=
  rfl

/-- C8: `getPhysicalMemoryB` returns 0 for every text the DMI decoder can
write: when some line matches the size pattern the early `return 0` is taken,
and when no line matches the loop runs over no lines and the result is
`0 * 1024 * 1024 = 0`. A decoder output that lists memory devices of 4096 MB
and 8192 MB, whose sizes would add up to 12288 MB, yields 0 as well. -/
theorem getPhysicalMemoryB_always_zero (dmidecodeOutput : String) :
    getPhysicalMemoryB dmidecodeOutput = 0 ∧
    (filter (split dmidecodeOutput (Char.ofNat 10)) = [] →
      sumSizes (filter (split dmidecodeOutput (Char.ofNat 10))) 0 = some 0 ∧
      getPhysicalMemoryB dmidecodeOutput = wrapInt64 (wrapInt64 (0 * 1024) * 1024)) ∧
    filter (split sampleDmidecode (Char.ofNat 10)) = ["\tSize: 4096 MB", "\tSize: 8192 MB"] ∧
    sumSizes (filter (split sampleDmidecode (Char.ofNat 10))) 0 = some 12288 ∧
    getPhysicalMemoryB sampleDmidecode = 0 := by
  refine ⟨?_, ?_, by decide, by decide, by decide⟩
  · unfold getPhysicalMemoryB
    by_cases h : filter (split dmidecodeOutput (Char.ofNat 10)) = []
    · simp only [h, ne_eq, not_true_eq_false, if_false, sumSizes_nil]
      decide
    · simp [h]
  · intro h
    unfold getPhysicalMemoryB
    simp only [h, ne_eq, not_true_eq_false, if_false, sumSizes_nil]
    exact ⟨trivial, by decide⟩

/-- Witness for C8: a decoder output without any size line; the filtered set
is empty and the sum over it is 0. -/
theorem getPhysicalMemoryB_always_zero_witness :
    sumSizes (filter (split "Memory Device\n\tSize: No Module Installed\n" (Char.ofNat 10))) 0 =
      some 0 ∧
    getPhysicalMemoryB "Memory Device\n\tSize: No Module Installed\n" =
      wrapInt64 (wrapInt64 (0 * 1024) * 1024) :=
  (getPhysicalMemoryB_always_zero "Memory Device\n\tSize: No Module Installed\n").2.1
    (by decide)

/-- The character of a digit below ten is an ASCII digit with that value. -/
theorem digitChar_isDigit (k : Nat) (hk : k < 10) :
    isDigitChar (Nat.digitChar k) = true ∧ (Nat.digitChar k).toNat - 48 = k := by
  interval_cases k <;> decide

/-- Reading digits across a concatenation continues from the value read so far. -/
theorem digitsValue_append (xs ys : List Char) (a : Nat) :
    digitsValue (xs ++ ys) a = (digitsValue xs a).bind fun v => digitsValue ys v := by
  induction xs generalizing a with
  | nil => simp [digitsValue]
  | cons c cs ih =>
    simp only [List.cons_append, digitsValue]
    split_ifs
    · exact ih _
    · rfl

/-- The decimal rendering of `n` prepends a non-empty run of digits whose value
is `n`. -/
theorem toDigitsCore_spec (fuel : Nat) :
    ∀ (n : Nat) (ds : List Char), n < fuel →
      ∃ pre, Nat.toDigitsCore 10 fuel n ds = pre ++ ds ∧ pre ≠ [] ∧
        (∀ c ∈ pre, isDigitChar c = true) ∧
        ∀ a, digitsValue pre a = some (a * 10 ^ pre.length + n) := by
  induction fuel with
  | zero => intro n ds h; omega
  | succ fuel ih =>
    intro n ds h
    have hd := digitChar_isDigit (n % 10) (Nat.mod_lt _ (by decide))
    unfold Nat.toDigitsCore
    by_cases h0 : n / 10 = 0
    · refine ⟨[Nat.digitChar (n % 10)], by simp [h0], by simp, by simpa using hd.1, ?_⟩
      intro a
      have hn : n % 10 = n := by omega
      simp [digitsValue, hd.1, hd.2]
      omega
    · obtain ⟨pre, h1, h2, h3, h4⟩ := ih (n / 10) (Nat.digitChar (n % 10) :: ds) (by omega)
      refine ⟨pre ++ [Nat.digitChar (n % 10)], by simp [h0, h1], by simp, ?_, ?_⟩
      · intro c hc
        rcases List.mem_append.1 hc with hc | hc
        · exact h3 c hc
        · simp at hc; subst hc; exact hd.1
      · intro a
        rw [digitsValue_append, h4]
        simp [digitsValue, hd.1, hd.2, pow_succ]
        have := Nat.div_add_mod n 10
        ring_nf
        omega

/-- Leading whitespace contributes no word. -/
theorem wordsAux_spaces (sp : Char → Bool) (s rest : List Char)
    (hs : ∀ c ∈ s, sp c = true) : wordsAux sp (s ++ rest) [] = wordsAux sp rest [] := by
  induction s with
  | nil => rfl
  | cons c cs ih =>
    have hc : sp c = true := hs c (by simp)
    simp only [List.cons_append, wordsAux, hc, if_true]
    exact ih (fun d hd => hs d (by simp [hd]))

/-- Characters that are not whitespace extend the current word. -/
theorem wordsAux_word (sp : Char → Bool) (w rest cur : List Char)
    (hw : ∀ c ∈ w, sp c = false) :
    wordsAux sp (w ++ rest) cur = wordsAux sp rest (w.reverse ++ cur) := by
  induction w generalizing cur with
  | nil => rfl
  | cons c cs ih =>
    have hc : sp c = false := hw c (by simp)
    have h := ih (c :: cur) (fun d hd => hw d (by simp [hd]))
    simp only [List.cons_append, wordsAux, hc, Bool.false_eq_true, if_false]
    simpa using h

/-- Trailing whitespace ends the current word and adds nothing. -/
theorem wordsAux_trailing (sp : Char → Bool) (s cur : List Char)
    (hs : ∀ c ∈ s, sp c = true) (hcur : cur ≠ []) : wordsAux sp s cur = [cur.reverse] := by
  cases s with
  | nil => simp [wordsAux, hcur]
  | cons c cs =>
    have hc : sp c = true := hs c (by simp)
    have h := wordsAux_spaces sp cs [] (fun d hd => hs d (by simp [hd]))
    simp only [List.append_nil] at h
    simp [wordsAux, hc, hcur, h]

/-- Simplifying a single word padded with whitespace yields the word. -/
theorem simplifiedWith_padded (sp : Char → Bool) (pre w post : List Char)
    (hpre : ∀ c ∈ pre, sp c = true) (hpost : ∀ c ∈ post, sp c = true)
    (hw : ∀ c ∈ w, sp c = false) (hne : w ≠ []) :
    simplifiedWith sp (pre ++ w ++ post) = w := by
  unfold simplifiedWith words
  rw [List.append_assoc, wordsAux_spaces sp pre _ hpre, wordsAux_word sp w post [] hw,
    wordsAux_trailing sp post _ hpost (by simpa using hne)]
  simp [joinWithSpace]

/-- Trimming a text without whitespace changes nothing. -/
theorem trimWith_of_no_space (sp : Char → Bool) (w : List Char)
    (hw : ∀ c ∈ w, sp c = false) : trimWith sp w = w := by
  have h : ∀ l : List Char, (∀ c ∈ l, sp c = false) → l.dropWhile sp = l := by
    intro l hl
    cases l with
    | nil => rfl
    | cons c cs => simp [List.dropWhile, hl c (by simp)]
  unfold trimWith
  rw [h w hw, h w.reverse (fun c hc => hw c (by simpa using hc))]
  simp

/-- A digit is neither whitespace nor a sign. -/
theorem digit_not_space (c : Char) (h : isDigitChar c = true) :
    asciiIsSpace c = false ∧ qcharIsSpace c = false ∧ c ≠ '-' ∧ c ≠ '+' := by
  have h45 : ('-' : Char).toNat = 45 := by decide
  have h43 : ('+' : Char).toNat = 43 := by decide
  simp only [isDigitChar, Bool.and_eq_true, decide_eq_true_eq] at h
  refine ⟨?_, ?_, ?_, ?_⟩
  · simp [asciiIsSpace]; omega
  · simp [qcharIsSpace]; omega
  · rintro rfl; omega
  · rintro rfl; omega

/-- For every natural number `n` with `n * 1024` below `2 ^ 63`, the decimal
rendering of `n`, padded on both sides with any C-locale whitespace, makes
`getTotalMemoryB` return `n * 1024`. -/
theorem getTotalMemoryB_of_decimal (n : Nat) (pre post : List Char)
    (hpre : ∀ c ∈ pre, asciiIsSpace c = true) (hpost : ∀ c ∈ post, asciiIsSpace c = true)
    (hfit : n * 1024 < 2 ^ 63) :
    getTotalMemoryB (String.mk (pre ++ Nat.toDigits 10 n ++ post)) = (n : Int) * 1024 := by
  obtain ⟨w, h1, h2, h3, h4⟩ := toDigitsCore_spec (n + 1) n [] (by omega)
  have hw : Nat.toDigits 10 n = w := by
    unfold Nat.toDigits
    simpa using h1
  have hsimp : byteArraySimplified (String.mk (pre ++ Nat.toDigits 10 n ++ post)) = String.mk w := by
    unfold byteArraySimplified
    rw [hw, simplifiedWith_padded asciiIsSpace pre w post hpre hpost
      (fun c hc => (digit_not_space c (h3 c hc)).1) h2]
  have hparse : toLongLong (String.mk w) = ((n : Int), true) := by
    unfold toLongLong toIntegral
    rw [trimWith_of_no_space qcharIsSpace w (fun c hc => (digit_not_space c (h3 c hc)).2.1)]
    cases w with
    | nil => exact absurd rfl h2
    | cons c cs =>
      have hc := digit_not_space c (h3 c (by simp))
      have hv := h4 0
      simp only [parseSignedDecimal, hc.2.2.1, hc.2.2.2, if_false, hv, Option.map_some']
      have hf : fitsSigned 64 (n : Int) := by
        unfold fitsSigned
        norm_num
        constructor <;> omega
      simp [hf]
  unfold getTotalMemoryB
  simp only [hsimp, hparse, Bool.not_true, Bool.false_eq_true, if_false]
  unfold wrapInt64 wrapSigned
  norm_num
  omega

/-- C7: `getTotalMemoryB` as a function of the text the extraction pipeline
wrote: when the simplified text converts to the integer `n` and `n * 1024` is
representable in 64 bits, the result is `n * 1024`; when the conversion fails,
the result is 0. For the memory-info content `MemTotal:        8133432 kB`
the pipeline writes the token 8133432 and the result is `8133432 * 1024`; an
empty text, a non-numeric text and a text of several tokens give 0. Every
natural number `n` with `n * 1024` below `2 ^ 63`, written in decimal and
padded with whitespace, is such a text and gives `n * 1024`. -/
theorem getTotalMemoryB_kibibytes_to_bytes :
    (∀ (awkOutput : String) (n : Int),
      toLongLong (byteArraySimplified awkOutput) = (n, true) → fitsSigned 64 (n * 1024) →
      getTotalMemoryB awkOutput = n * 1024) ∧
    (∀ awkOutput : String,
      (toLongLong (byteArraySimplified awkOutput)).2 = false → getTotalMemoryB awkOutput = 0) ∧
    awkMemTotal "MemTotal:        8133432 kB\n" = "8133432\n" ∧
    getTotalMemoryB (awkMemTotal "MemTotal:        8133432 kB\n") = 8133432 * 1024 ∧
    getTotalMemoryB "" = 0 ∧
    getTotalMemoryB "unknown\n" = 0 ∧
    getTotalMemoryB "8133432\n16266864\n" = 0 ∧
    (∀ (n : Nat) (pre post : List Char),
      (∀ c ∈ pre, asciiIsSpace c = true) → (∀ c ∈ post, asciiIsSpace c = true) →
      n * 1024 < 2 ^ 63 →
      getTotalMemoryB (String.mk (pre ++ Nat.toDigits 10 n ++ post)) = (n : Int) * 1024) := by
  refine ⟨?_, ?_, by decide, by decide, by decide, by decide, by decide,
    fun n pre post hpre hpost hfit => getTotalMemoryB_of_decimal n pre post hpre hpost hfit⟩
  · intro awkOutput n hparse hfit
    unfold fitsSigned at hfit
    unfold getTotalMemoryB
    simp only [hparse, Bool.not_true, Bool.false_eq_true, if_false]
    unfold wrapInt64 wrapSigned
    norm_num at hfit ⊢
    omega
  · intro awkOutput hfail
    unfold getTotalMemoryB
    simp [hfail]

/-- Witness for C7: the pipeline output `8133432` followed by a newline. -/
theorem getTotalMemoryB_kibibytes_to_bytes_witness :
    getTotalMemoryB "8133432\n" = 8133432 * 1024 :=
  getTotalMemoryB_kibibytes_to_bytes.1 "8133432\n" 8133432 (by decide) (by decide)

end CalamaresUtils
